import Mathlib

/-!
Shallow embedding of the repo-updater dependency-update pipeline
(src/runner.ts, src/index.ts, src/args.ts, src/config.ts).

External processes are modelled by a pure executor function from a command
(list of argv words) and a working directory to a result, mirroring the
injectable executor of the source. The pipeline is embedded together with
the ordered trace of executor invocations it performs, so that properties
about which commands run (cleanup, short-circuit, dry-run) are statable.
A small interpretation of the git commands over a branch state is used to
express the branch-lifecycle invariants.
-/

/-- Output of a successful external command, as in the source ExecOutput. -/
structure ExecOutput where
  stdout : String
  stderr : String
deriving Repr, DecidableEq

/-- Payload of the CommandFailedError tagged error of src/errors.ts. -/
structure CommandFailedError where
  message : String
  command : String
  stderr : String
deriving Repr, DecidableEq

deriving instance DecidableEq for Except

/-- Result of one executor invocation: ok with outputs, or a command failure. -/
abbrev ExecResult := Except CommandFailedError ExecOutput

/-- The injected executor: a pure function from command words and working
directory to a result, mirroring the execFn parameter of updateRepo. -/
abbrev ExecFn := List String → String → ExecResult

/-- The closed enumeration of package managers from src/runner.ts. -/
inductive PackageManager where
  | npm
  | pnpm
  | yarn
  | bun
deriving Repr, DecidableEq

/-- Model of node path.join for the two-segment uses in the source. -/
def joinPath (a b : String) : String := a ++ "/" ++ b

/-- The lockfile checks of detectPackageManager, in source order
(package-lock.json first, per the comment "npm first for audit"). -/
def lockfileChecks : List (String × PackageManager) :=
  [("package-lock.json", PackageManager.npm),
   ("pnpm-lock.yaml", PackageManager.pnpm),
   ("yarn.lock", PackageManager.yarn),
   ("bun.lock", PackageManager.bun)]

/-- detectPackageManager from src/runner.ts; the filesystem is modelled by
the predicate fs telling which absolute paths exist. -/
def detectPackageManager (fs : String → Bool) (repoPath : String) : PackageManager :=
  match lockfileChecks.find? (fun c => fs (joinPath repoPath c.1)) with
  | some c => c.2
  | none => PackageManager.npm

/-- getUpdateCommand from src/runner.ts. -/
def getUpdateCommand (pm : PackageManager) : List String :=
  match pm with
  | PackageManager.npm => ["npm", "update"]
  | PackageManager.pnpm => ["pnpm", "update", "--latest"]
  | PackageManager.yarn => ["yarn", "upgrade"]
  | PackageManager.bun => ["bun", "update", "--latest"]

/-- getInstallCommand from src/runner.ts. -/
def getInstallCommand (pm : PackageManager) : List String :=
  match pm with
  | PackageManager.npm => ["npm", "install"]
  | PackageManager.pnpm => ["pnpm", "install"]
  | PackageManager.yarn => ["yarn", "install"]
  | PackageManager.bun => ["bun", "install"]

/-- The characters of the literal part of DEFAULT_BRANCH_REGEX. -/
def refsLit : List Char := "refs/remotes/origin/".toList

/-- One attempted regex match at the current position: the literal must be a
prefix and the captured group is the nonempty, line-terminator-free rest of
the input (the JS pattern is anchored at end by the dollar and the dot does
not cross line terminators). -/
def tailAfterLit (l : List Char) : Option (List Char) :=
  if refsLit.isPrefixOf l then
    let r := l.drop refsLit.length
    if !r.isEmpty && r.all (fun c => c != '\n' && c != '\r') then some r else none
  else none

/-- Left-to-right scan of the regex engine for the first matching position. -/
def scanForDefaultBranch : List Char → Option (List Char)
  | [] => none
  | c :: rest =>
    match tailAfterLit (c :: rest) with
    | some r => some r
    | none => scanForDefaultBranch rest

/-- Model of stdout.match(DEFAULT_BRANCH_REGEX), returning the captured
branch name when the pattern matches. -/
def parseDefaultBranch (s : String) : Option String :=
  (scanForDefaultBranch s.toList).map (fun l => String.mk l)

/-- The working-branch name built in updateRepo: the date plus a Date.now()
timestamp suffix (source comment: avoid collisions when running multiple
times in one day). -/
def branchName (date : String) (timestamp : Nat) : String :=
  "chore/dep-updates-" ++ date ++ "-" ++ toString timestamp

/-- Model of the JavaScript String.prototype.trim call: drop leading and
trailing whitespace characters. -/
def jsTrim (s : String) : String :=
  String.mk (((s.toList.dropWhile Char.isWhitespace).reverse.dropWhile
    Char.isWhitespace).reverse)

/-- RepoResult of src/runner.ts; status is the string tag, widened to also
carry the "failed" tag used by processRepo. -/
structure RepoResult where
  repo : String
  status : String
  prUrl : Option String
deriving Repr, DecidableEq

def symbolicRefCmd : List String := ["git", "symbolic-ref", "refs/remotes/origin/HEAD"]

def checkoutCmd (b : String) : List String := ["git", "checkout", b]

def checkoutNewCmd (b : String) : List String := ["git", "checkout", "-b", b]

def pullCmd : List String := ["git", "pull"]

def statusCmd : List String := ["git", "status", "--porcelain"]

def addCmd : List String := ["git", "add", "-A"]

def commitCmd (date : String) : List String :=
  ["git", "commit", "-m", "dep updates " ++ date]

def pushCmd (b : String) : List String := ["git", "push", "-u", "origin", b]

def prCreateCmd (date : String) : List String :=
  ["gh", "pr", "create", "--title", "Dep Updates " ++ date,
   "--body", "Dep Updates " ++ date]

def deleteBranchCmd (b : String) : List String := ["git", "branch", "-D", b]

def deleteRemoteCmd (b : String) : List String :=
  ["git", "push", "origin", "--delete", b]

/-- performCleanup from src/runner.ts, as the ordered list of commands it
invokes; the source ignores the results of these commands (their failures
are only logged as warnings), so the invocation list is the whole
observable behaviour. -/
def performCleanup (defaultBranch branch : String)
    (branchCreated branchPushed : Bool) : List (List String) :=
  if branchCreated then
    checkoutCmd defaultBranch ::
      (if branchPushed then [deleteRemoteCmd branch] else []) ++
        [deleteBranchCmd branch]
  else []

/-- One pipeline step: invoke the command; on failure return the error with
the cleanup commands that the catch block would then invoke; on success
continue with k. The emitted second component is the executor-invocation
trace. -/
def tryStep (execFn : ExecFn) (repo : String) (cmd : List String)
    (cleanup : List (List String))
    (k : ExecOutput → Except CommandFailedError RepoResult × List (List String)) :
    Except CommandFailedError RepoResult × List (List String) :=
  match execFn cmd repo with
  | Except.error e => (Except.error e, cmd :: cleanup)
  | Except.ok o => ((k o).1, cmd :: (k o).2)

/-- The non-dry-run pipeline of updateRepo (src/runner.ts lines 214-296),
returning the outcome and the ordered trace of executor invocations. -/
def updateRepoCore (fs : String → Bool) (execFn : ExecFn)
    (repo date : String) (timestamp : Nat) :
    Except CommandFailedError RepoResult × List (List String) :=
  let branch := branchName date timestamp
  let pm := detectPackageManager fs repo
  tryStep execFn repo symbolicRefCmd [] (fun sref =>
    let defaultBranch := (parseDefaultBranch sref.stdout).getD "main"
    tryStep execFn repo (checkoutCmd defaultBranch) [] (fun _ =>
    tryStep execFn repo pullCmd [] (fun _ =>
    tryStep execFn repo (checkoutNewCmd branch) [] (fun _ =>
    tryStep execFn repo (getUpdateCommand pm)
        (performCleanup defaultBranch branch true false) (fun _ =>
    tryStep execFn repo (getInstallCommand pm)
        (performCleanup defaultBranch branch true false) (fun _ =>
    tryStep execFn repo statusCmd
        (performCleanup defaultBranch branch true false) (fun status =>
    if status.stdout = "" then
      tryStep execFn repo (checkoutCmd defaultBranch)
          (performCleanup defaultBranch branch true false) (fun _ =>
      tryStep execFn repo (deleteBranchCmd branch)
          (performCleanup defaultBranch branch true false) (fun _ =>
      (Except.ok { repo := repo, status := "no-changes", prUrl := none }, [])))
    else
      tryStep execFn repo addCmd
          (performCleanup defaultBranch branch true false) (fun _ =>
      tryStep execFn repo (commitCmd date)
          (performCleanup defaultBranch branch true false) (fun _ =>
      tryStep execFn repo (pushCmd branch)
          (performCleanup defaultBranch branch true false) (fun _ =>
      tryStep execFn repo (prCreateCmd date)
          (performCleanup defaultBranch branch true true) (fun pr =>
      (Except.ok { repo := repo, status := "pr-created",
                   prUrl := some (jsTrim pr.stdout) }, []))))))))))))

/-- The default branch a given run of the pipeline ends up using: the
captured group of the symbolic-ref output when it parses, otherwise the
"main" fallback. -/
def defaultBranchOf (execFn : ExecFn) (repo : String) : String :=
  match execFn symbolicRefCmd repo with
  | Except.ok o => (parseDefaultBranch o.stdout).getD "main"
  | Except.error _ => "main"

def placeholderPrUrl : String := "https://github.com/example/repo/pull/0"

/-- Join command words with spaces, as cmd.join(" ") in the source. -/
def joinWords (l : List String) : String := String.intercalate " " l

/-- The descriptive step texts printed by dryRunRepo, verbatim from the
source template literals. -/
def dryRunStepTexts (pm : PackageManager) (date branch defaultBranch : String) :
    List String :=
  ["git checkout " ++ defaultBranch,
   "git pull",
   "git checkout -b " ++ branch,
   joinWords (getUpdateCommand pm),
   joinWords (getInstallCommand pm),
   "git status --porcelain",
   "git add -A",
   "git commit -m \"dep updates " ++ date ++ "\"",
   "git push -u origin " ++ branch,
   "gh pr create --title \"Dep Updates " ++ date ++
     "\" --body \"Dep Updates " ++ date ++ "\""]

/-- dryRunRepo from src/runner.ts: detects the package manager, prints the
step list, and synthesizes a fixed successful outcome with the placeholder
PR URL. Returns the outcome and the printed step texts. -/
def dryRunRepo (fs : String → Bool) (repo date branch defaultBranch : String) :
    Except CommandFailedError RepoResult × List String :=
  let pm := detectPackageManager fs repo
  (Except.ok { repo := repo, status := "pr-created", prUrl := some placeholderPrUrl },
   dryRunStepTexts pm date branch defaultBranch)

/-- Everything observable about one updateRepo call: the returned result,
the executor invocations, and the dry-run step texts printed (empty in a
real run). -/
structure UpdateOutcome where
  result : Except CommandFailedError RepoResult
  trace : List (List String)
  dryRunLog : List String
deriving Repr, DecidableEq

/-- updateRepo from src/runner.ts: the dry-run branch never consults the
executor and delegates to dryRunRepo with the assumed "main" default
branch; the real branch runs the pipeline. The Date.now() timestamp of the
branch name is a parameter. -/
def updateRepo (fs : String → Bool) (execFn : ExecFn) (repo date : String)
    (timestamp : Nat) (dryRun : Bool) : UpdateOutcome :=
  let branch := branchName date timestamp
  if dryRun then
    let d := dryRunRepo fs repo date branch "main"
    { result := d.1, trace := [], dryRunLog := d.2 }
  else
    let c := updateRepoCore fs execFn repo date timestamp
    { result := c.1, trace := c.2, dryRunLog := [] }

/-- Branch-level git state: the checked-out branch and the sets of local
and remote branches, used to interpret the command trace. -/
structure GitState where
  current : String
  localBranches : List String
  remoteBranches : List String
deriving Repr, DecidableEq

/-- Effect of one successfully executed command on the branch state; the
non-branch commands (pull, status, add, commit, package-manager commands,
gh) leave it unchanged. -/
def applyCmd (s : GitState) (cmd : List String) : GitState :=
  match cmd with
  | [g, c, b] =>
    if g = "git" ∧ c = "checkout" then { s with current := b } else s
  | [g, c, f, b] =>
    if g = "git" ∧ c = "checkout" ∧ f = "-b" then
      { s with current := b, localBranches := b :: s.localBranches }
    else if g = "git" ∧ c = "branch" ∧ f = "-D" then
      { s with localBranches := s.localBranches.erase b }
    else s
  | [g, p, u, o, b] =>
    if g = "git" ∧ p = "push" ∧ u = "-u" ∧ o = "origin" then
      { s with remoteBranches := b :: s.remoteBranches }
    else if g = "git" ∧ p = "push" ∧ u = "origin" ∧ o = "--delete" then
      { s with remoteBranches := s.remoteBranches.erase b }
    else s
  | _ => s

/-- Interpret an invocation trace over the branch state: a command takes
effect exactly when its invocation succeeded under the executor. -/
def runTrace (execFn : ExecFn) (repo : String) (s : GitState) :
    List (List String) → GitState
  | [] => s
  | c :: cs =>
    runTrace execFn repo
      (match execFn c repo with
       | Except.ok _ => applyCmd s c
       | Except.error _ => s) cs

/-- ParsedArgs of src/args.ts. -/
structure ParsedArgs where
  help : Bool
  dryRun : Bool
  configPath : Option String
  positional : List String
deriving Repr, DecidableEq

/-- Model of arg.startsWith("-"): the first character is a dash. -/
def startsWithDash (s : String) : Bool :=
  match s.toList with
  | [] => false
  | c :: _ => c = '-'

/-- The loop body of parseArgs over the manual iterator: the config flag
consumes the following argument as its value (possibly absent at the end of
the list), recognized flags set their field, non-dash arguments are
collected as positional, and any other dash argument is skipped. -/
def parseArgsLoop : List String → ParsedArgs → ParsedArgs
  | [], acc => acc
  | a :: rest, acc =>
    if a = "-h" || a = "--help" then
      parseArgsLoop rest { acc with help := true }
    else if a = "-n" || a = "--dry-run" then
      parseArgsLoop rest { acc with dryRun := true }
    else if a = "-c" || a = "--config" then
      match rest with
      | [] => { acc with configPath := none }
      | v :: rest2 => parseArgsLoop rest2 { acc with configPath := some v }
    else if !(startsWithDash a) then
      parseArgsLoop rest { acc with positional := acc.positional ++ [a] }
    else
      parseArgsLoop rest acc

/-- parseArgs from src/args.ts. -/
def parseArgs (argv : List String) : ParsedArgs :=
  parseArgsLoop argv
    { help := false, dryRun := false, configPath := none, positional := [] }

/-- The recognized dash flags of parseArgs. -/
def recognizedFlags : List String :=
  ["-h", "--help", "-n", "--dry-run", "-c", "--config"]

/-- String(n).padStart(2, "0") for a natural number. -/
def pad2 (n : Nat) : String :=
  if n < 10 then "0" ++ toString n else toString n

/-- The components the source reads off the Date object: getFullYear,
the zero-based getMonth, and the day-of-month getDate. -/
structure DateParts where
  year : Nat
  month0 : Nat
  day : Nat
deriving Repr, DecidableEq

/-- getDate from src/args.ts: day, dash, month, dash, year. -/
def getDate (now : DateParts) : String :=
  pad2 now.day ++ "-" ++ pad2 (now.month0 + 1) ++ "-" ++ toString now.year

/-- The DATE_PATTERN of the args test suite: four digits, dash, two digits,
dash, two digits, anchored at both ends. -/
def matchesTestDatePattern (s : String) : Bool :=
  match s.toList with
  | [a, b, c, d, e, f, g, h, i, j] =>
    a.isDigit && b.isDigit && c.isDigit && d.isDigit && e = '-' &&
      f.isDigit && g.isDigit && h = '-' && i.isDigit && j.isDigit
  | _ => false

def configFilename : String := "repo-updater.config.json"

/-- The candidate list of loadConfig in src/config.ts: the explicit path
alone when given, otherwise the working-directory file then the user config
location. -/
def configCandidates (cwd home : String) : Option String → List String
  | some p => [p]
  | none =>
    [joinPath cwd configFilename,
     joinPath home (joinPath ".config" (joinPath "repo-updater" "config.json"))]

/-- processRepo from src/index.ts, over an injected update function taking
the repo, date and dry-run flag. Returns the per-repo result and the
updated accumulated PR URL list (a URL is appended only on a non-dry
pr-created outcome with a truthy, hence nonempty, URL). -/
def processRepo
    (updateFn : String → String → Bool → Except CommandFailedError RepoResult)
    (repo date : String) (dryRun : Bool) (prUrls : List String) :
    RepoResult × List String :=
  if dryRun then
    match updateFn repo date true with
    | Except.ok v => (v, prUrls)
    | Except.error _ => ({ repo := repo, status := "failed", prUrl := none }, prUrls)
  else
    match updateFn repo date false with
    | Except.error _ => ({ repo := repo, status := "failed", prUrl := none }, prUrls)
    | Except.ok v =>
      if v.status = "no-changes" then (v, prUrls)
      else
        (v,
         match v.prUrl with
         | some u => if u = "" then prUrls else prUrls ++ [u]
         | none => prUrls)

/-- handleRepoProcessing from src/index.ts: a sequential for-loop over the
validated repositories, each iteration calling processRepo; the per-repo
results are collected in order together with the final PR URL list. -/
def handleRepoProcessing
    (updateFn : String → String → Bool → Except CommandFailedError RepoResult)
    (date : String) (dryRun : Bool) :
    List String → List String → List RepoResult × List String
  | [], prUrls => ([], prUrls)
  | repo :: rest, prUrls =>
    let p := processRepo updateFn repo date dryRun prUrls
    let r := handleRepoProcessing updateFn date dryRun rest p.2
    (p.1 :: r.1, r.2)

/-- Convenience: a successful executor result with the given stdout. -/
def okOut (s : String) : ExecResult := Except.ok { stdout := s, stderr := "" }

/-- A filesystem with no lockfiles at all. -/
def fsEmpty : String → Bool := fun _ => false

/-- A filesystem for repo "r" holding both the npm and the bun lockfile. -/
def fsNpmBun : String → Bool := fun p =>
  p == joinPath "r" "package-lock.json" || p == joinPath "r" "bun.lock"

/-- A filesystem for repo "r" holding only the bun lockfile. -/
def fsBunOnly : String → Bool := fun p => p == joinPath "r" "bun.lock"

def errInstall : CommandFailedError :=
  { message := "Command failed: npm install (exit 1)", command := "npm install",
    stderr := "error installing" }

def errSym : CommandFailedError :=
  { message := "Command failed: git symbolic-ref refs/remotes/origin/HEAD (exit 128)",
    command := "git symbolic-ref refs/remotes/origin/HEAD", stderr := "fatal: ref" }

def errDel : CommandFailedError :=
  { message := "Command failed: git branch -D (exit 1)", command := "git branch -D",
    stderr := "error: branch not fully merged" }

/-- Executor for a fully successful run: parseable symbolic-ref output,
dirty status, and a PR URL from gh. -/
def execHappy : ExecFn := fun cmd _ =>
  if cmd = symbolicRefCmd then okOut "refs/remotes/origin/main"
  else if cmd = statusCmd then okOut "M package.json"
  else if cmd = prCreateCmd "2025-01-01" then okOut "https://github.com/owner/repo/pull/42"
  else okOut ""

/-- Executor whose symbolic-ref query itself fails. -/
def execSymFail : ExecFn := fun cmd _ =>
  if cmd = symbolicRefCmd then Except.error errSym else okOut ""

/-- Executor whose symbolic-ref query succeeds with unparseable output. -/
def execUnparseable : ExecFn := fun cmd _ =>
  if cmd = symbolicRefCmd then okOut "not a ref path" else okOut ""

/-- Executor that fails the npm install step after the branch was created. -/
def execFailInstall : ExecFn := fun cmd _ =>
  if cmd = symbolicRefCmd then okOut "refs/remotes/origin/main"
  else if cmd = ["npm", "install"] then Except.error errInstall
  else okOut ""

/-- Executor for a clean working tree: empty porcelain status, all git
commands succeed. -/
def execNoChanges : ExecFn := fun cmd _ =>
  if cmd = symbolicRefCmd then okOut "refs/remotes/origin/main"
  else if cmd = statusCmd then okOut ""
  else okOut ""

/-- Executor for a clean working tree whose branch deletion fails. -/
def execNoChangesDelFails : ExecFn := fun cmd _ =>
  if cmd = symbolicRefCmd then okOut "refs/remotes/origin/main"
  else if cmd = statusCmd then okOut ""
  else if cmd.take 3 = ["git", "branch", "-D"] then Except.error errDel
  else okOut ""

/-- An update function for the batch model: fails on repository "a",
reports a PR for any other repository. -/
def updateFnMixed : String → String → Bool → Except CommandFailedError RepoResult :=
  fun repo _ _ =>
    if repo = "a" then Except.error errInstall
    else Except.ok { repo := repo, status := "pr-created",
                     prUrl := some ("https://example.com/pr/" ++ repo) }

/-! Helper lemmas about command shapes. -/

theorem pushCmd_ne_symbolicRef (b : String) : pushCmd b ≠ symbolicRefCmd := by
  simp [pushCmd, symbolicRefCmd]

theorem pushCmd_ne_checkout (b d : String) : pushCmd b ≠ checkoutCmd d := by
  simp [pushCmd, checkoutCmd]

theorem pushCmd_ne_pull (b : String) : pushCmd b ≠ pullCmd := by
  simp [pushCmd, pullCmd]

theorem pushCmd_ne_checkoutNew (b d : String) : pushCmd b ≠ checkoutNewCmd d := by
  simp [pushCmd, checkoutNewCmd]

theorem pushCmd_ne_update (b : String) (pm : PackageManager) :
    pushCmd b ≠ getUpdateCommand pm := by
  cases pm <;> simp [pushCmd, getUpdateCommand]

theorem pushCmd_ne_install (b : String) (pm : PackageManager) :
    pushCmd b ≠ getInstallCommand pm := by
  cases pm <;> simp [pushCmd, getInstallCommand]

theorem pushCmd_ne_status (b : String) : pushCmd b ≠ statusCmd := by
  simp [pushCmd, statusCmd]

theorem pushCmd_ne_add (b : String) : pushCmd b ≠ addCmd := by
  simp [pushCmd, addCmd]

theorem pushCmd_ne_commit (b d : String) : pushCmd b ≠ commitCmd d := by
  simp [pushCmd, commitCmd]

theorem pushCmd_ne_deleteBranch (b d : String) : pushCmd b ≠ deleteBranchCmd d := by
  simp [pushCmd, deleteBranchCmd]

/-- C2: in a non-dry-run pipeline run in which the branch-creation step
succeeded and some later step failed, updateRepo appends exactly the
performCleanup command sequence (checkout of the default branch, remote
deletion if and only if the branch had been pushed, local branch deletion)
after the failed command, every command before the failing one succeeded,
and the returned error is the triggering failure itself, untouched by any
cleanup command result. -/
theorem failureAfterBranchTriggersCleanup (fs : String → Bool) (execFn : ExecFn) (repo date : String) (ts : Nat)
    (e : CommandFailedError) (o1 o2 o3 o4 : ExecOutput)
    (h1 : execFn symbolicRefCmd repo = Except.ok o1)
    (h2 : execFn (checkoutCmd ((parseDefaultBranch o1.stdout).getD "main")) repo = Except.ok o2)
    (h3 : execFn pullCmd repo = Except.ok o3)
    (h4 : execFn (checkoutNewCmd (branchName date ts)) repo = Except.ok o4)
    (hfail : (updateRepoCore fs execFn repo date ts).1 = Except.error e) :
    ∃ (pre : List (List String)) (failCmd : List String) (pushed : Bool),
      (updateRepoCore fs execFn repo date ts).2 =
        pre ++ failCmd :: performCleanup ((parseDefaultBranch o1.stdout).getD "main")
          (branchName date ts) true pushed ∧
      execFn failCmd repo = Except.error e ∧
      (∀ c ∈ pre, ∃ o, execFn c repo = Except.ok o) ∧
      (pushed = true ↔ pushCmd (branchName date ts) ∈ pre) := by
  simp only [updateRepoCore, tryStep, h1, h2, h3, h4] at hfail ⊢
  rcases h5 : execFn (getUpdateCommand (detectPackageManager fs repo)) repo with e5 | o5
  · simp only [h5] at hfail ⊢
    rw [Except.error.injEq] at hfail
    subst hfail
    refine ⟨[symbolicRefCmd, checkoutCmd ((parseDefaultBranch o1.stdout).getD "main"),
      pullCmd, checkoutNewCmd (branchName date ts)],
      getUpdateCommand (detectPackageManager fs repo), false, by simp, h5, ?_, ?_⟩
    · intro c hc
      simp only [List.mem_cons, List.not_mem_nil, or_false] at hc
      rcases hc with rfl | rfl | rfl | rfl
      exacts [⟨o1, h1⟩, ⟨o2, h2⟩, ⟨o3, h3⟩, ⟨o4, h4⟩]
    · simp [pushCmd_ne_symbolicRef, pushCmd_ne_checkout, pushCmd_ne_pull,
        pushCmd_ne_checkoutNew]
  · simp only [h5] at hfail ⊢
    rcases h6 : execFn (getInstallCommand (detectPackageManager fs repo)) repo with e6 | o6
    · simp only [h6] at hfail ⊢
      rw [Except.error.injEq] at hfail
      subst hfail
      refine ⟨[symbolicRefCmd, checkoutCmd ((parseDefaultBranch o1.stdout).getD "main"),
        pullCmd, checkoutNewCmd (branchName date ts),
        getUpdateCommand (detectPackageManager fs repo)],
        getInstallCommand (detectPackageManager fs repo), false, by simp, h6, ?_, ?_⟩
      · intro c hc
        simp only [List.mem_cons, List.not_mem_nil, or_false] at hc
        rcases hc with rfl | rfl | rfl | rfl | rfl
        exacts [⟨o1, h1⟩, ⟨o2, h2⟩, ⟨o3, h3⟩, ⟨o4, h4⟩, ⟨o5, h5⟩]
      · simp [pushCmd_ne_symbolicRef, pushCmd_ne_checkout, pushCmd_ne_pull,
          pushCmd_ne_checkoutNew, pushCmd_ne_update]
    · simp only [h6] at hfail ⊢
      rcases h7 : execFn statusCmd repo with e7 | o7
      · simp only [h7] at hfail ⊢
        rw [Except.error.injEq] at hfail
        subst hfail
        refine ⟨[symbolicRefCmd, checkoutCmd ((parseDefaultBranch o1.stdout).getD "main"),
          pullCmd, checkoutNewCmd (branchName date ts),
          getUpdateCommand (detectPackageManager fs repo),
          getInstallCommand (detectPackageManager fs repo)],
          statusCmd, false, by simp, h7, ?_, ?_⟩
        · intro c hc
          simp only [List.mem_cons, List.not_mem_nil, or_false] at hc
          rcases hc with rfl | rfl | rfl | rfl | rfl | rfl
          exacts [⟨o1, h1⟩, ⟨o2, h2⟩, ⟨o3, h3⟩, ⟨o4, h4⟩, ⟨o5, h5⟩, ⟨o6, h6⟩]
        · simp [pushCmd_ne_symbolicRef, pushCmd_ne_checkout, pushCmd_ne_pull,
            pushCmd_ne_checkoutNew, pushCmd_ne_update, pushCmd_ne_install]
      · simp only [h7] at hfail ⊢
        by_cases hs : o7.stdout = ""
        · rw [if_pos hs] at hfail ⊢
          simp only [h2] at hfail ⊢
          rcases h9 : execFn (deleteBranchCmd (branchName date ts)) repo with e9 | o9
          · simp only [h9] at hfail ⊢
            rw [Except.error.injEq] at hfail
            subst hfail
            refine ⟨[symbolicRefCmd, checkoutCmd ((parseDefaultBranch o1.stdout).getD "main"),
              pullCmd, checkoutNewCmd (branchName date ts),
              getUpdateCommand (detectPackageManager fs repo),
              getInstallCommand (detectPackageManager fs repo), statusCmd,
              checkoutCmd ((parseDefaultBranch o1.stdout).getD "main")],
              deleteBranchCmd (branchName date ts), false, by simp, h9, ?_, ?_⟩
            · intro c hc
              simp only [List.mem_cons, List.not_mem_nil, or_false] at hc
              rcases hc with rfl | rfl | rfl | rfl | rfl | rfl | rfl | rfl
              exacts [⟨o1, h1⟩, ⟨o2, h2⟩, ⟨o3, h3⟩, ⟨o4, h4⟩, ⟨o5, h5⟩, ⟨o6, h6⟩,
                ⟨o7, h7⟩, ⟨o2, h2⟩]
            · simp [pushCmd_ne_symbolicRef, pushCmd_ne_checkout, pushCmd_ne_pull,
                pushCmd_ne_checkoutNew, pushCmd_ne_update, pushCmd_ne_install,
                pushCmd_ne_status]
          · simp only [h9] at hfail
            exact absurd hfail (by simp)
        · rw [if_neg hs] at hfail ⊢
          rcases h8 : execFn addCmd repo with e8 | o8
          · simp only [h8] at hfail ⊢
            rw [Except.error.injEq] at hfail
            subst hfail
            refine ⟨[symbolicRefCmd, checkoutCmd ((parseDefaultBranch o1.stdout).getD "main"),
              pullCmd, checkoutNewCmd (branchName date ts),
              getUpdateCommand (detectPackageManager fs repo),
              getInstallCommand (detectPackageManager fs repo), statusCmd],
              addCmd, false, by simp, h8, ?_, ?_⟩
            · intro c hc
              simp only [List.mem_cons, List.not_mem_nil, or_false] at hc
              rcases hc with rfl | rfl | rfl | rfl | rfl | rfl | rfl
              exacts [⟨o1, h1⟩, ⟨o2, h2⟩, ⟨o3, h3⟩, ⟨o4, h4⟩, ⟨o5, h5⟩, ⟨o6, h6⟩, ⟨o7, h7⟩]
            · simp [pushCmd_ne_symbolicRef, pushCmd_ne_checkout, pushCmd_ne_pull,
                pushCmd_ne_checkoutNew, pushCmd_ne_update, pushCmd_ne_install,
                pushCmd_ne_status]
          · simp only [h8] at hfail ⊢
            rcases h10 : execFn (commitCmd date) repo with e10 | o10
            · simp only [h10] at hfail ⊢
              rw [Except.error.injEq] at hfail
              subst hfail
              refine ⟨[symbolicRefCmd, checkoutCmd ((parseDefaultBranch o1.stdout).getD "main"),
                pullCmd, checkoutNewCmd (branchName date ts),
                getUpdateCommand (detectPackageManager fs repo),
                getInstallCommand (detectPackageManager fs repo), statusCmd, addCmd],
                commitCmd date, false, by simp, h10, ?_, ?_⟩
              · intro c hc
                simp only [List.mem_cons, List.not_mem_nil, or_false] at hc
                rcases hc with rfl | rfl | rfl | rfl | rfl | rfl | rfl | rfl
                exacts [⟨o1, h1⟩, ⟨o2, h2⟩, ⟨o3, h3⟩, ⟨o4, h4⟩, ⟨o5, h5⟩, ⟨o6, h6⟩,
                  ⟨o7, h7⟩, ⟨o8, h8⟩]
              · simp [pushCmd_ne_symbolicRef, pushCmd_ne_checkout, pushCmd_ne_pull,
                  pushCmd_ne_checkoutNew, pushCmd_ne_update, pushCmd_ne_install,
                  pushCmd_ne_status, pushCmd_ne_add]
            · simp only [h10] at hfail ⊢
              rcases h11 : execFn (pushCmd (branchName date ts)) repo with e11 | o11
              · simp only [h11] at hfail ⊢
                rw [Except.error.injEq] at hfail
                subst hfail
                refine ⟨[symbolicRefCmd, checkoutCmd ((parseDefaultBranch o1.stdout).getD "main"),
                  pullCmd, checkoutNewCmd (branchName date ts),
                  getUpdateCommand (detectPackageManager fs repo),
                  getInstallCommand (detectPackageManager fs repo), statusCmd, addCmd,
                  commitCmd date],
                  pushCmd (branchName date ts), false, by simp, h11, ?_, ?_⟩
                · intro c hc
                  simp only [List.mem_cons, List.not_mem_nil, or_false] at hc
                  rcases hc with rfl | rfl | rfl | rfl | rfl | rfl | rfl | rfl | rfl
                  exacts [⟨o1, h1⟩, ⟨o2, h2⟩, ⟨o3, h3⟩, ⟨o4, h4⟩, ⟨o5, h5⟩, ⟨o6, h6⟩,
                    ⟨o7, h7⟩, ⟨o8, h8⟩, ⟨o10, h10⟩]
                · simp [pushCmd_ne_symbolicRef, pushCmd_ne_checkout, pushCmd_ne_pull,
                    pushCmd_ne_checkoutNew, pushCmd_ne_update, pushCmd_ne_install,
                    pushCmd_ne_status, pushCmd_ne_add, pushCmd_ne_commit]
              · simp only [h11] at hfail ⊢
                rcases h12 : execFn (prCreateCmd date) repo with e12 | o12
                · simp only [h12] at hfail ⊢
                  rw [Except.error.injEq] at hfail
                  subst hfail
                  refine ⟨[symbolicRefCmd, checkoutCmd ((parseDefaultBranch o1.stdout).getD "main"),
                    pullCmd, checkoutNewCmd (branchName date ts),
                    getUpdateCommand (detectPackageManager fs repo),
                    getInstallCommand (detectPackageManager fs repo), statusCmd, addCmd,
                    commitCmd date, pushCmd (branchName date ts)],
                    prCreateCmd date, true, by simp, h12, ?_, ?_⟩
                  · intro c hc
                    simp only [List.mem_cons, List.not_mem_nil, or_false] at hc
                    rcases hc with rfl | rfl | rfl | rfl | rfl | rfl | rfl | rfl | rfl | rfl
                    exacts [⟨o1, h1⟩, ⟨o2, h2⟩, ⟨o3, h3⟩, ⟨o4, h4⟩, ⟨o5, h5⟩, ⟨o6, h6⟩,
                      ⟨o7, h7⟩, ⟨o8, h8⟩, ⟨o10, h10⟩, ⟨o11, h11⟩]
                  · simp
                · simp only [h12] at hfail
                  exact absurd hfail (by simp)

/-- Witness for C2: a run that fails at the install step after branch
creation, instantiated with concrete executor, repository and date. -/
theorem failureAfterBranchTriggersCleanupWitness :
    ∃ (pre : List (List String)) (failCmd : List String) (pushed : Bool),
      (updateRepoCore fsEmpty execFailInstall "r" "2025-01-01" 7).2 =
        pre ++ failCmd :: performCleanup "main" (branchName "2025-01-01" 7) true pushed ∧
      execFailInstall failCmd "r" = Except.error errInstall ∧
      (∀ c ∈ pre, ∃ o, execFailInstall c "r" = Except.ok o) ∧
      (pushed = true ↔ pushCmd (branchName "2025-01-01" 7) ∈ pre) :=
  failureAfterBranchTriggersCleanup fsEmpty execFailInstall "r" "2025-01-01" 7 errInstall
    { stdout := "refs/remotes/origin/main", stderr := "" }
    { stdout := "", stderr := "" } { stdout := "", stderr := "" }
    { stdout := "", stderr := "" }
    (by decide) (by decide) (by decide) (by decide) (by decide)

/-- C7: in a non-dry-run pipeline run in which the status check reports a
non-empty porcelain output and every subsequent step succeeds, the outcome
is pr-created and the recorded PR URL is exactly the trimmed stdout of the
PR-creation command; the trace is the full eleven-step sequence with no
cleanup. -/
theorem statusNonemptySuccessCreatesPr (fs : String → Bool) (execFn : ExecFn)
    (repo date : String) (ts : Nat)
    (o1 o2 o3 o4 o5 o6 o7 o8 o9 o10 opr : ExecOutput)
    (h1 : execFn symbolicRefCmd repo = Except.ok o1)
    (h2 : execFn (checkoutCmd ((parseDefaultBranch o1.stdout).getD "main")) repo = Except.ok o2)
    (h3 : execFn pullCmd repo = Except.ok o3)
    (h4 : execFn (checkoutNewCmd (branchName date ts)) repo = Except.ok o4)
    (h5 : execFn (getUpdateCommand (detectPackageManager fs repo)) repo = Except.ok o5)
    (h6 : execFn (getInstallCommand (detectPackageManager fs repo)) repo = Except.ok o6)
    (h7 : execFn statusCmd repo = Except.ok o7) (hne : o7.stdout ≠ "")
    (h8 : execFn addCmd repo = Except.ok o8)
    (h9 : execFn (commitCmd date) repo = Except.ok o9)
    (h10 : execFn (pushCmd (branchName date ts)) repo = Except.ok o10)
    (h11 : execFn (prCreateCmd date) repo = Except.ok opr) :
    (updateRepoCore fs execFn repo date ts).1 =
      Except.ok { repo := repo, status := "pr-created",
                  prUrl := some (jsTrim opr.stdout) } ∧
    (updateRepoCore fs execFn repo date ts).2 =
      [symbolicRefCmd, checkoutCmd ((parseDefaultBranch o1.stdout).getD "main"),
       pullCmd, checkoutNewCmd (branchName date ts),
       getUpdateCommand (detectPackageManager fs repo),
       getInstallCommand (detectPackageManager fs repo),
       statusCmd, addCmd, commitCmd date,
       pushCmd (branchName date ts), prCreateCmd date] := by
  simp only [updateRepoCore, tryStep, h1, h2, h3, h4, h5, h6, h7, h8, h9, h10, h11, hne,
    ite_false, if_neg, and_self, List.cons.injEq, true_and]

/-- Witness for C7: the fully successful concrete run, whose recorded PR
URL is the trimmed gh stdout. -/
theorem statusNonemptySuccessCreatesPrWitness :
    (updateRepoCore fsEmpty execHappy "r" "2025-01-01" 7).1 =
      Except.ok { repo := "r", status := "pr-created",
                  prUrl := some (jsTrim "https://github.com/owner/repo/pull/42") } ∧
    (updateRepoCore fsEmpty execHappy "r" "2025-01-01" 7).2 =
      [symbolicRefCmd, checkoutCmd "main", pullCmd,
       checkoutNewCmd (branchName "2025-01-01" 7),
       getUpdateCommand PackageManager.npm, getInstallCommand PackageManager.npm,
       statusCmd, addCmd, commitCmd "2025-01-01",
       pushCmd (branchName "2025-01-01" 7), prCreateCmd "2025-01-01"] :=
  statusNonemptySuccessCreatesPr fsEmpty execHappy "r" "2025-01-01" 7
    { stdout := "refs/remotes/origin/main", stderr := "" }
    { stdout := "", stderr := "" } { stdout := "", stderr := "" }
    { stdout := "", stderr := "" } { stdout := "", stderr := "" }
    { stdout := "", stderr := "" } { stdout := "M package.json", stderr := "" }
    { stdout := "", stderr := "" } { stdout := "", stderr := "" }
    { stdout := "", stderr := "" }
    { stdout := "https://github.com/owner/repo/pull/42", stderr := "" }
    (by decide) (by decide) (by decide) (by decide) (by decide) (by decide)
    (by decide) (by decide) (by decide) (by decide) (by decide) (by decide)

/-- C4: the fallback to "main" happens only when the symbolic-ref query
succeeds but its output does not match the ref-path pattern; when the query
command itself fails, updateRepo propagates that failure as the outcome of
the run, with no further command invoked; when the output parses, the
captured branch is used. -/
theorem defaultBranchFallbackSemantics (fs : String → Bool) (execFn : ExecFn)
    (repo date : String) (ts : Nat) :
    (∀ e, execFn symbolicRefCmd repo = Except.error e →
       updateRepoCore fs execFn repo date ts = (Except.error e, [symbolicRefCmd])) ∧
    (∀ o, execFn symbolicRefCmd repo = Except.ok o →
       (parseDefaultBranch o.stdout = none →
         (updateRepoCore fs execFn repo date ts).2.take 2 =
           [symbolicRefCmd, checkoutCmd "main"]) ∧
       (∀ b, parseDefaultBranch o.stdout = some b →
         (updateRepoCore fs execFn repo date ts).2.take 2 =
           [symbolicRefCmd, checkoutCmd b])) := by
  constructor
  · intro e he
    simp [updateRepoCore, tryStep, he]
  · intro o ho
    constructor
    · intro hp
      simp only [updateRepoCore, tryStep, ho, hp, Option.getD_none]
      rcases h2 : execFn (checkoutCmd "main") repo with e2 | o2 <;> simp [h2, tryStep]
    · intro b hp
      simp only [updateRepoCore, tryStep, ho, hp, Option.getD_some]
      rcases h2 : execFn (checkoutCmd b) repo with e2 | o2 <;> simp [h2, tryStep]

/-- Witness for C4: a failing query propagates its error with no fallback,
and a successful but unparseable query falls back to checking out "main". -/
theorem defaultBranchFallbackSemanticsWitness :
    updateRepoCore fsEmpty execSymFail "r" "2025-01-01" 7 =
      (Except.error errSym, [symbolicRefCmd]) ∧
    (updateRepoCore fsEmpty execUnparseable "r" "2025-01-01" 7).2.take 2 =
      [symbolicRefCmd, checkoutCmd "main"] :=
  ⟨(defaultBranchFallbackSemantics fsEmpty execSymFail "r" "2025-01-01" 7).1
      errSym (by decide),
   ((defaultBranchFallbackSemantics fsEmpty execUnparseable "r" "2025-01-01" 7).2
      { stdout := "not a ref path", stderr := "" } (by decide)).1 (by decide)⟩

/-- C5: detectPackageManager checks the lockfiles in the fixed order npm,
pnpm, yarn, bun and returns the first manager whose lockfile exists; a
repository with both the npm and the bun lockfile is detected as npm, and a
repository with no recognized lockfile falls back to npm. -/
theorem detectPackageManagerPriority (fs : String → Bool) (p : String) :
    detectPackageManager fs p =
      (if fs (joinPath p "package-lock.json") then PackageManager.npm
       else if fs (joinPath p "pnpm-lock.yaml") then PackageManager.pnpm
       else if fs (joinPath p "yarn.lock") then PackageManager.yarn
       else if fs (joinPath p "bun.lock") then PackageManager.bun
       else PackageManager.npm) ∧
    (fs (joinPath p "package-lock.json") = true ∧ fs (joinPath p "bun.lock") = true →
       detectPackageManager fs p = PackageManager.npm) ∧
    ((∀ f ∈ lockfileChecks, fs (joinPath p f.1) = false) →
       detectPackageManager fs p = PackageManager.npm) := by
  have key : detectPackageManager fs p =
      (if fs (joinPath p "package-lock.json") then PackageManager.npm
       else if fs (joinPath p "pnpm-lock.yaml") then PackageManager.pnpm
       else if fs (joinPath p "yarn.lock") then PackageManager.yarn
       else if fs (joinPath p "bun.lock") then PackageManager.bun
       else PackageManager.npm) := by
    simp only [detectPackageManager, lockfileChecks, List.find?]
    by_cases h1 : fs (joinPath p "package-lock.json") <;> simp [h1]
    all_goals (by_cases h2 : fs (joinPath p "pnpm-lock.yaml") <;> simp [h2])
    all_goals (by_cases h3 : fs (joinPath p "yarn.lock") <;> simp [h3])
    all_goals (by_cases h4 : fs (joinPath p "bun.lock") <;> simp [h4])
  refine ⟨key, ?_, ?_⟩
  · rintro ⟨ha, _⟩
    rw [key, if_pos ha]
  · intro hall
    have ha := hall ("package-lock.json", PackageManager.npm) (by simp [lockfileChecks])
    have hb := hall ("pnpm-lock.yaml", PackageManager.pnpm) (by simp [lockfileChecks])
    have hc := hall ("yarn.lock", PackageManager.yarn) (by simp [lockfileChecks])
    have hd := hall ("bun.lock", PackageManager.bun) (by simp [lockfileChecks])
    rw [key]
    simp only at ha hb hc hd
    simp [ha, hb, hc, hd]

/-- Witness for C5: a repository with both npm and bun lockfiles resolves
to npm, and a repository with no lockfile defaults to npm. -/
theorem detectPackageManagerPriorityWitness :
    detectPackageManager fsNpmBun "r" = PackageManager.npm ∧
    detectPackageManager fsEmpty "r" = PackageManager.npm :=
  ⟨(detectPackageManagerPriority fsNpmBun "r").2.1 (by decide),
   (detectPackageManagerPriority fsEmpty "r").2.2 (by decide)⟩

/-! Reduction lemmas for the branch-state interpretation. -/

theorem applyCmd_symbolicRef (s : GitState) : applyCmd s symbolicRefCmd = s := rfl

theorem applyCmd_pull (s : GitState) : applyCmd s pullCmd = s := rfl

theorem applyCmd_status (s : GitState) : applyCmd s statusCmd = s := rfl

theorem applyCmd_add (s : GitState) : applyCmd s addCmd = s := rfl

theorem applyCmd_commit (s : GitState) (d : String) : applyCmd s (commitCmd d) = s := rfl

theorem applyCmd_prCreate (s : GitState) (d : String) : applyCmd s (prCreateCmd d) = s := rfl

theorem applyCmd_checkout (s : GitState) (b : String) :
    applyCmd s (checkoutCmd b) = { s with current := b } := rfl

theorem applyCmd_checkoutNew (s : GitState) (b : String) :
    applyCmd s (checkoutNewCmd b) =
      { s with current := b, localBranches := b :: s.localBranches } := rfl

theorem applyCmd_deleteBranch (s : GitState) (b : String) :
    applyCmd s (deleteBranchCmd b) =
      { s with localBranches := s.localBranches.erase b } := rfl

theorem applyCmd_push (s : GitState) (b : String) :
    applyCmd s (pushCmd b) = { s with remoteBranches := b :: s.remoteBranches } := rfl

theorem applyCmd_deleteRemote (s : GitState) (b : String) :
    applyCmd s (deleteRemoteCmd b) =
      { s with remoteBranches := s.remoteBranches.erase b } := rfl

theorem applyCmd_update (s : GitState) (pm : PackageManager) :
    applyCmd s (getUpdateCommand pm) = s := by cases pm <;> rfl

theorem applyCmd_install (s : GitState) (pm : PackageManager) :
    applyCmd s (getInstallCommand pm) = s := by cases pm <;> rfl
theorem commitCmd_ne_update (d : String) (pm : PackageManager) :
    commitCmd d ≠ getUpdateCommand pm := by
  cases pm <;> simp [commitCmd, getUpdateCommand]

theorem commitCmd_ne_install (d : String) (pm : PackageManager) :
    commitCmd d ≠ getInstallCommand pm := by
  cases pm <;> simp [commitCmd, getInstallCommand]

theorem prCreateCmd_ne_update (d : String) (pm : PackageManager) :
    prCreateCmd d ≠ getUpdateCommand pm := by
  cases pm <;> simp [prCreateCmd, getUpdateCommand]

theorem prCreateCmd_ne_install (d : String) (pm : PackageManager) :
    prCreateCmd d ≠ getInstallCommand pm := by
  cases pm <;> simp [prCreateCmd, getInstallCommand]

/-- C6 counterexample: a run whose status check returns empty output but
whose branch-deletion command fails has outcome failed, not no-changes, and
the working branch still exists locally afterwards, refuting the claim as
stated. -/
theorem noChangesDeleteFailureCounterexample :
    execNoChangesDelFails statusCmd "r" = okOut "" ∧
    (updateRepoCore fsEmpty execNoChangesDelFails "r" "2025-01-01" 7).1 =
      Except.error errDel ∧
    branchName "2025-01-01" 7 ∈
      (runTrace execNoChangesDelFails "r"
        { current := "main", localBranches := ["main"], remoteBranches := [] }
        (updateRepoCore fsEmpty execNoChangesDelFails "r" "2025-01-01" 7).2).localBranches := by
  decide

/-- C6 amended: in a non-dry-run pipeline run in which the status check
returns empty output and the short-circuit checkout and branch-deletion
commands succeed, the outcome is no-changes, no commit, push or
PR-creation command is invoked, and afterwards the repository is on the
default branch with the working branch existing neither locally nor
remotely. -/
theorem noChangesShortCircuit (fs : String → Bool) (execFn : ExecFn)
    (repo date : String) (ts : Nat) (s0 : GitState)
    (o1 o2 o3 o4 o5 o6 o7 o9 : ExecOutput)
    (h1 : execFn symbolicRefCmd repo = Except.ok o1)
    (h2 : execFn (checkoutCmd ((parseDefaultBranch o1.stdout).getD "main")) repo = Except.ok o2)
    (h3 : execFn pullCmd repo = Except.ok o3)
    (h4 : execFn (checkoutNewCmd (branchName date ts)) repo = Except.ok o4)
    (h5 : execFn (getUpdateCommand (detectPackageManager fs repo)) repo = Except.ok o5)
    (h6 : execFn (getInstallCommand (detectPackageManager fs repo)) repo = Except.ok o6)
    (h7 : execFn statusCmd repo = Except.ok o7) (hs : o7.stdout = "")
    (h9 : execFn (deleteBranchCmd (branchName date ts)) repo = Except.ok o9)
    (hl : branchName date ts ∉ s0.localBranches)
    (hr : branchName date ts ∉ s0.remoteBranches) :
    (updateRepoCore fs execFn repo date ts).1 =
      Except.ok { repo := repo, status := "no-changes", prUrl := none } ∧
    (updateRepoCore fs execFn repo date ts).2 =
      [symbolicRefCmd, checkoutCmd ((parseDefaultBranch o1.stdout).getD "main"),
       pullCmd, checkoutNewCmd (branchName date ts),
       getUpdateCommand (detectPackageManager fs repo),
       getInstallCommand (detectPackageManager fs repo), statusCmd,
       checkoutCmd ((parseDefaultBranch o1.stdout).getD "main"),
       deleteBranchCmd (branchName date ts)] ∧
    commitCmd date ∉ (updateRepoCore fs execFn repo date ts).2 ∧
    pushCmd (branchName date ts) ∉ (updateRepoCore fs execFn repo date ts).2 ∧
    prCreateCmd date ∉ (updateRepoCore fs execFn repo date ts).2 ∧
    (runTrace execFn repo s0 (updateRepoCore fs execFn repo date ts).2).current =
      (parseDefaultBranch o1.stdout).getD "main" ∧
    branchName date ts ∉
      (runTrace execFn repo s0 (updateRepoCore fs execFn repo date ts).2).localBranches ∧
    branchName date ts ∉
      (runTrace execFn repo s0 (updateRepoCore fs execFn repo date ts).2).remoteBranches := by
  have htr : (updateRepoCore fs execFn repo date ts).2 =
      [symbolicRefCmd, checkoutCmd ((parseDefaultBranch o1.stdout).getD "main"),
       pullCmd, checkoutNewCmd (branchName date ts),
       getUpdateCommand (detectPackageManager fs repo),
       getInstallCommand (detectPackageManager fs repo), statusCmd,
       checkoutCmd ((parseDefaultBranch o1.stdout).getD "main"),
       deleteBranchCmd (branchName date ts)] := by
    simp only [updateRepoCore, tryStep, h1, h2, h3, h4, h5, h6, h7, hs, h9,
      eq_self_iff_true, ite_true]
  have hres : (updateRepoCore fs execFn repo date ts).1 =
      Except.ok { repo := repo, status := "no-changes", prUrl := none } := by
    simp only [updateRepoCore, tryStep, h1, h2, h3, h4, h5, h6, h7, hs, h9,
      eq_self_iff_true, ite_true]
  refine ⟨hres, htr, ?_, ?_, ?_, ?_, ?_, ?_⟩
  · rw [htr]
    rcases hpm : detectPackageManager fs repo <;>
      simp [hpm, commitCmd, symbolicRefCmd, checkoutCmd, pullCmd, checkoutNewCmd,
        statusCmd, deleteBranchCmd, getUpdateCommand, getInstallCommand]
  · rw [htr]
    rcases hpm : detectPackageManager fs repo <;>
      simp [hpm, pushCmd, symbolicRefCmd, checkoutCmd, pullCmd, checkoutNewCmd,
        statusCmd, deleteBranchCmd, getUpdateCommand, getInstallCommand]
  · rw [htr]
    rcases hpm : detectPackageManager fs repo <;>
      simp [hpm, prCreateCmd, symbolicRefCmd, checkoutCmd, pullCmd, checkoutNewCmd,
        statusCmd, deleteBranchCmd, getUpdateCommand, getInstallCommand]
  all_goals rw [htr]
  all_goals simp only [runTrace, h1, h2, h3, h4, h5, h6, h7, h9,
    applyCmd_symbolicRef, applyCmd_pull, applyCmd_status, applyCmd_update,
    applyCmd_install, applyCmd_checkout, applyCmd_checkoutNew,
    applyCmd_deleteBranch, List.erase_cons_head]
  · exact hl
  · exact hr

/-- Witness for C6 amended: the concrete clean-working-tree run. -/
theorem noChangesShortCircuitWitness :
    (updateRepoCore fsEmpty execNoChanges "r" "2025-01-01" 7).1 =
      Except.ok { repo := "r", status := "no-changes", prUrl := none } ∧
    (updateRepoCore fsEmpty execNoChanges "r" "2025-01-01" 7).2 =
      [symbolicRefCmd, checkoutCmd "main", pullCmd,
       checkoutNewCmd (branchName "2025-01-01" 7),
       getUpdateCommand PackageManager.npm, getInstallCommand PackageManager.npm,
       statusCmd, checkoutCmd "main", deleteBranchCmd (branchName "2025-01-01" 7)] ∧
    commitCmd "2025-01-01" ∉ (updateRepoCore fsEmpty execNoChanges "r" "2025-01-01" 7).2 ∧
    pushCmd (branchName "2025-01-01" 7) ∉
      (updateRepoCore fsEmpty execNoChanges "r" "2025-01-01" 7).2 ∧
    prCreateCmd "2025-01-01" ∉ (updateRepoCore fsEmpty execNoChanges "r" "2025-01-01" 7).2 ∧
    (runTrace execNoChanges "r"
      { current := "main", localBranches := ["main"], remoteBranches := [] }
      (updateRepoCore fsEmpty execNoChanges "r" "2025-01-01" 7).2).current = "main" ∧
    branchName "2025-01-01" 7 ∉
      (runTrace execNoChanges "r"
        { current := "main", localBranches := ["main"], remoteBranches := [] }
        (updateRepoCore fsEmpty execNoChanges "r" "2025-01-01" 7).2).localBranches ∧
    branchName "2025-01-01" 7 ∉
      (runTrace execNoChanges "r"
        { current := "main", localBranches := ["main"], remoteBranches := [] }
        (updateRepoCore fsEmpty execNoChanges "r" "2025-01-01" 7).2).remoteBranches :=
  noChangesShortCircuit fsEmpty execNoChanges "r" "2025-01-01" 7
    { current := "main", localBranches := ["main"], remoteBranches := [] }
    { stdout := "refs/remotes/origin/main", stderr := "" }
    { stdout := "", stderr := "" } { stdout := "", stderr := "" }
    { stdout := "", stderr := "" } { stdout := "", stderr := "" }
    { stdout := "", stderr := "" } { stdout := "", stderr := "" }
    { stdout := "", stderr := "" }
    (by decide) (by decide) (by decide) (by decide) (by decide) (by decide)
    (by decide) (by decide) (by decide) (by decide) (by decide)

/-- C9: with dryRun set, updateRepo performs zero executor invocations (its
outcome does not depend on the executor at all), always returns the
pr-created-shaped placeholder outcome with the recognizable placeholder
URL, and its printed log is the ordered step list with the detected package
manager's actual update and install commands substituted. -/
theorem dryRunNoExecutorCalls (fs : String → Bool) (execFn execFn2 : ExecFn)
    (repo date : String) (ts : Nat) :
    (updateRepo fs execFn repo date ts true).trace = [] ∧
    (updateRepo fs execFn repo date ts true).result =
      Except.ok { repo := repo, status := "pr-created", prUrl := some placeholderPrUrl } ∧
    updateRepo fs execFn repo date ts true = updateRepo fs execFn2 repo date ts true ∧
    (updateRepo fs execFn repo date ts true).dryRunLog =
      dryRunStepTexts (detectPackageManager fs repo) date (branchName date ts) "main" ∧
    joinWords (getUpdateCommand (detectPackageManager fs repo)) ∈
      (updateRepo fs execFn repo date ts true).dryRunLog ∧
    joinWords (getInstallCommand (detectPackageManager fs repo)) ∈
      (updateRepo fs execFn repo date ts true).dryRunLog := by
  refine ⟨rfl, rfl, rfl, rfl, ?_, ?_⟩ <;>
    simp [updateRepo, dryRunRepo, dryRunStepTexts]

theorem processRepoFstIndependent
    (updateFn : String → String → Bool → Except CommandFailedError RepoResult)
    (repo date : String) (dryRun : Bool) (l : List String) :
    (processRepo updateFn repo date dryRun l).1 =
      (processRepo updateFn repo date dryRun []).1 := by
  unfold processRepo
  rcases dryRun <;> rcases updateFn repo date true <;> rcases updateFn repo date false <;>
    simp <;> split <;> simp

/-- C8: the batch loop processes the validated repositories strictly in
list order, producing one independent per-repo result for each (the result
for a repository depends only on the update function at that repository,
not on earlier outcomes or the accumulated URL list), and a failed update
yields the failed per-repo result without aborting the others. -/
theorem batchSequentialIndependent
    (updateFn : String → String → Bool → Except CommandFailedError RepoResult)
    (date : String) (dryRun : Bool) (valid : List String) (prUrls0 : List String) :
    (handleRepoProcessing updateFn date dryRun valid prUrls0).1 =
      valid.map (fun repo => (processRepo updateFn repo date dryRun []).1) ∧
    (handleRepoProcessing updateFn date dryRun valid prUrls0).1.length = valid.length ∧
    (∀ repo e, updateFn repo date dryRun = Except.error e →
       (processRepo updateFn repo date dryRun []).1 =
         { repo := repo, status := "failed", prUrl := none }) := by
  have hmap : ∀ (l : List String) (acc : List String),
      (handleRepoProcessing updateFn date dryRun l acc).1 =
        l.map (fun repo => (processRepo updateFn repo date dryRun []).1) := by
    intro l
    induction l with
    | nil => intro acc; rfl
    | cons r rest ih =>
      intro acc
      simp only [handleRepoProcessing, List.map_cons, List.cons.injEq]
      exact ⟨processRepoFstIndependent updateFn r date dryRun acc, ih _⟩
  refine ⟨hmap valid prUrls0, by rw [hmap valid prUrls0]; simp, ?_⟩
  intro repo e he
  unfold processRepo
  rcases dryRun <;> simp [he]

/-- Witness for C8: a two-repository batch in which the first repository
fails and the second still produces its result. -/
theorem batchSequentialIndependentWitness :
    (handleRepoProcessing updateFnMixed "2025-01-01" false ["a", "b"] []).1 =
      [(processRepo updateFnMixed "a" "2025-01-01" false []).1,
       (processRepo updateFnMixed "b" "2025-01-01" false []).1] ∧
    (processRepo updateFnMixed "a" "2025-01-01" false []).1 =
      { repo := "a", status := "failed", prUrl := none } :=
  ⟨(batchSequentialIndependent updateFnMixed "2025-01-01" false ["a", "b"] []).1,
   (batchSequentialIndependent updateFnMixed "2025-01-01" false ["a", "b"] []).2.2
     "a" errInstall (by decide)⟩

theorem parseArgsLoop_positional_dashfree (argv : List String) (acc : ParsedArgs) :
    (∀ p ∈ acc.positional, startsWithDash p = false) →
    ∀ p ∈ (parseArgsLoop argv acc).positional, startsWithDash p = false := by
  induction argv, acc using parseArgsLoop.induct with
  | case1 acc =>
    intro hacc
    exact hacc
  | case2 a rest acc h ih =>
    intro hacc
    rw [parseArgsLoop.eq_def]
    simp only [h, ite_true]
    exact ih hacc
  | case3 a rest acc h1 h2 ih =>
    intro hacc
    rw [parseArgsLoop.eq_def]
    simp only [h1, h2, ite_true, ite_false]
    exact ih hacc
  | case4 a acc h1 h2 h3 =>
    intro hacc
    rw [parseArgsLoop.eq_def]
    simp only [h1, h2, h3, ite_true, ite_false]
    exact hacc
  | case5 a acc h1 h2 h3 v rest2 ih =>
    intro hacc
    rw [parseArgsLoop.eq_def]
    simp only [h1, h2, h3, ite_true, ite_false]
    exact ih hacc
  | case6 a rest acc h1 h2 h3 h4 ih =>
    intro hacc
    rw [parseArgsLoop.eq_def]
    simp only [h1, h2, h3, h4, ite_true, ite_false]
    refine ih ?_
    intro p hp
    rcases List.mem_append.mp hp with hp | hp
    · exact hacc p hp
    · rw [List.mem_singleton.mp hp]
      simpa using h4
  | case7 a rest acc h1 h2 h3 h4 ih =>
    intro hacc
    rw [parseArgsLoop.eq_def]
    simp only [h1, h2, h3, h4, ite_true, ite_false]
    exact ih hacc

theorem parseArgsLoop_cons (a : String) (rest : List String) (acc : ParsedArgs) :
    parseArgsLoop (a :: rest) acc =
      if a = "-h" || a = "--help" then parseArgsLoop rest { acc with help := true }
      else if a = "-n" || a = "--dry-run" then
        parseArgsLoop rest { acc with dryRun := true }
      else if a = "-c" || a = "--config" then
        (match rest with
         | [] => { acc with configPath := none }
         | v :: rest2 => parseArgsLoop rest2 { acc with configPath := some v })
      else if !(startsWithDash a) then
        parseArgsLoop rest { acc with positional := acc.positional ++ [a] }
      else parseArgsLoop rest acc := by
  rw [parseArgsLoop.eq_def]

theorem parseArgsLoop_final_config (ys : List String) :
    ∀ (acc : ParsedArgs), "-c" ∉ ys → "--config" ∉ ys →
    (parseArgsLoop (ys ++ ["-c"]) acc).configPath = none := by
  induction ys with
  | nil =>
    intro acc _ _
    rw [List.nil_append, parseArgsLoop_cons]
    simp
  | cons x xs ih =>
    intro acc hc1 hc2
    have hx1 : x ≠ "-c" := fun h => hc1 (by simp [h])
    have hx2 : x ≠ "--config" := fun h => hc2 (by simp [h])
    have hxs1 : "-c" ∉ xs := fun h => hc1 (List.mem_cons_of_mem _ h)
    have hxs2 : "--config" ∉ xs := fun h => hc2 (List.mem_cons_of_mem _ h)
    rw [List.cons_append, parseArgsLoop_cons]
    split
    · exact ih _ hxs1 hxs2
    · split
      · exact ih _ hxs1 hxs2
      · split
        · next hcfg => simp [hx1, hx2] at hcfg
        · split
          · exact ih _ hxs1 hxs2
          · exact ih _ hxs1 hxs2

/-- C10: parseArgs silently skips any dash argument that is not a
recognized flag when it is read in flag position (the parse is the same as
without it), no dash argument is ever collected as a positional repo path,
and a trailing config flag with no following value leaves configPath
undefined, so loadConfig searches its default candidate locations. -/
theorem parseArgsUnknownFlagBehavior :
    (∀ (a : String) (ys : List String) (acc : ParsedArgs),
       startsWithDash a = true → a ∉ recognizedFlags →
       parseArgsLoop (a :: ys) acc = parseArgsLoop ys acc) ∧
    (∀ argv, ∀ p ∈ (parseArgs argv).positional, startsWithDash p = false) ∧
    (∀ ys, "-c" ∉ ys → "--config" ∉ ys →
       (parseArgs (ys ++ ["-c"])).configPath = none) ∧
    (∀ cwd home, configCandidates cwd home none =
       [joinPath cwd configFilename,
        joinPath home (joinPath ".config" (joinPath "repo-updater" "config.json"))]) := by
  refine ⟨?_, ?_, ?_, fun cwd home => rfl⟩
  · intro a ys acc ha hno
    simp only [recognizedFlags, List.mem_cons, List.not_mem_nil, or_false, not_or] at hno
    obtain ⟨n1, n2, n3, n4, n5, n6⟩ := hno
    rw [parseArgsLoop_cons]
    simp [n1, n2, n3, n4, n5, n6, ha]
  · intro argv
    exact parseArgsLoop_positional_dashfree argv _ (by simp [List.not_mem_nil])
  · intro ys h1 h2
    exact parseArgsLoop_final_config ys _ h1 h2

/-- Witness for C10: an unknown flag is dropped from a concrete argv, a
concrete positional argument is dash-free, and a trailing config flag
leaves the config path unset. -/
theorem parseArgsUnknownFlagBehaviorWitness :
    parseArgsLoop ["--verbose", "repo1"]
      { help := false, dryRun := false, configPath := none, positional := [] } =
      parseArgsLoop ["repo1"]
        { help := false, dryRun := false, configPath := none, positional := [] } ∧
    ("a" ∈ (parseArgs ["-x", "a", "--weird"]).positional →
      startsWithDash "a" = false) ∧
    (parseArgs (["a"] ++ ["-c"])).configPath = none :=
  ⟨parseArgsUnknownFlagBehavior.1 "--verbose" ["repo1"] _ (by decide) (by decide),
   parseArgsUnknownFlagBehavior.2.1 ["-x", "a", "--weird"] "a",
   parseArgsUnknownFlagBehavior.2.2.1 ["a"] (by decide) (by decide)⟩

/-- C3 counterexample: in the concrete successful run, step 4 creates a
branch whose name carries a timestamp suffix and so differs from
chore/dep-updates-date, and getDate emits day-month-year order, which
fails the four-digit-first date pattern asserted by the test suite, while
the year-first form passes it. -/
theorem branchNameMismatchCounterexample :
    (updateRepoCore fsEmpty execHappy "r" "2025-01-01" 7).2.take 4 =
      [symbolicRefCmd, checkoutCmd "main", pullCmd,
       checkoutNewCmd "chore/dep-updates-2025-01-01-7"] ∧
    "chore/dep-updates-2025-01-01-7" ≠ "chore/dep-updates-2025-01-01" ∧
    getDate { year := 2025, month0 := 0, day := 2 } = "02-01-2025" ∧
    matchesTestDatePattern "02-01-2025" = false ∧
    matchesTestDatePattern "2025-01-02" = true := by
  decide

/-- C3 amended: step 4 creates and switches to a branch named exactly
chore/dep-updates-date-timestamp (the Date.now() suffix avoids same-day
collisions); the same date string is used in the commit message
(dep updates date) and the PR title and body (Dep Updates date); the
shared date string produced by getDate is day-month-year with padding,
not year-month-day. -/
theorem branchNameTimestampAndSharedDate (fs : String → Bool) (execFn : ExecFn)
    (repo date : String) (ts : Nat) (o1 o2 o3 : ExecOutput)
    (h1 : execFn symbolicRefCmd repo = Except.ok o1)
    (h2 : execFn (checkoutCmd ((parseDefaultBranch o1.stdout).getD "main")) repo = Except.ok o2)
    (h3 : execFn pullCmd repo = Except.ok o3) :
    branchName date ts = "chore/dep-updates-" ++ date ++ "-" ++ toString ts ∧
    (updateRepoCore fs execFn repo date ts).2.take 4 =
      [symbolicRefCmd, checkoutCmd ((parseDefaultBranch o1.stdout).getD "main"),
       pullCmd, checkoutNewCmd (branchName date ts)] ∧
    commitCmd date = ["git", "commit", "-m", "dep updates " ++ date] ∧
    prCreateCmd date = ["gh", "pr", "create", "--title", "Dep Updates " ++ date,
      "--body", "Dep Updates " ++ date] ∧
    (∀ p : DateParts,
       getDate p = pad2 p.day ++ "-" ++ pad2 (p.month0 + 1) ++ "-" ++ toString p.year) := by
  refine ⟨rfl, ?_, rfl, rfl, fun p => rfl⟩
  simp only [updateRepoCore, tryStep, h1, h2, h3]
  rcases h4 : execFn (checkoutNewCmd (branchName date ts)) repo with e4 | o4 <;>
    simp [h4]

/-- Witness for C3 amended: the concrete successful run uses the
timestamped branch name in its checkout command. -/
theorem branchNameTimestampAndSharedDateWitness :
    branchName "2025-01-01" 7 = "chore/dep-updates-" ++ "2025-01-01" ++ "-" ++ toString 7 ∧
    (updateRepoCore fsEmpty execHappy "r" "2025-01-01" 7).2.take 4 =
      [symbolicRefCmd, checkoutCmd "main", pullCmd,
       checkoutNewCmd (branchName "2025-01-01" 7)] ∧
    commitCmd "2025-01-01" = ["git", "commit", "-m", "dep updates " ++ "2025-01-01"] ∧
    prCreateCmd "2025-01-01" = ["gh", "pr", "create", "--title",
      "Dep Updates " ++ "2025-01-01", "--body", "Dep Updates " ++ "2025-01-01"] ∧
    (∀ p : DateParts,
       getDate p = pad2 p.day ++ "-" ++ pad2 (p.month0 + 1) ++ "-" ++ toString p.year) :=
  branchNameTimestampAndSharedDate fsEmpty execHappy "r" "2025-01-01" 7
    { stdout := "refs/remotes/origin/main", stderr := "" }
    { stdout := "", stderr := "" } { stdout := "", stderr := "" }
    (by decide) (by decide) (by decide)

/-- C1 counterexample: on the successful pr-created exit path the pipeline
performs no cleanup: interpreting the concrete successful run's trace, the
repository is left checked out on the working branch (not the default
branch) and the working branch still exists both locally and remotely. -/
theorem successLeavesWorkingBranchCounterexample :
    (updateRepoCore fsEmpty execHappy "r" "2025-01-01" 7).1 =
      Except.ok { repo := "r", status := "pr-created",
                  prUrl := some "https://github.com/owner/repo/pull/42" } ∧
    runTrace execHappy "r"
      { current := "main", localBranches := ["main"], remoteBranches := ["main"] }
      (updateRepoCore fsEmpty execHappy "r" "2025-01-01" 7).2 =
      { current := branchName "2025-01-01" 7,
        localBranches := [branchName "2025-01-01" 7, "main"],
        remoteBranches := [branchName "2025-01-01" 7, "main"] } ∧
    branchName "2025-01-01" 7 ≠ "main" := by
  decide

/-- C1 amended: branch lifecycle by exit path. On the no-changes exit the
repository ends on the detected default branch and the working branch
exists neither locally nor remotely. On the failed exit, provided the
cleanup commands succeed under the executor, the repository ends on the
detected default branch (or was never moved off its original branch) and
the working branch exists neither locally nor remotely. On the successful
pr-created exit no cleanup runs: the repository remains checked out on the
working branch, which also remains on the remote as the base of the PR. -/
theorem branchLifecycleByExitPath (fs : String → Bool) (execFn : ExecFn)
    (repo date : String) (ts : Nat) (s0 : GitState)
    (hl : branchName date ts ∉ s0.localBranches)
    (hr : branchName date ts ∉ s0.remoteBranches) :
    (∀ res, (updateRepoCore fs execFn repo date ts).1 = Except.ok res →
       res.status = "no-changes" →
       (runTrace execFn repo s0 (updateRepoCore fs execFn repo date ts).2).current =
         defaultBranchOf execFn repo ∧
       branchName date ts ∉
         (runTrace execFn repo s0 (updateRepoCore fs execFn repo date ts).2).localBranches ∧
       branchName date ts ∉
         (runTrace execFn repo s0 (updateRepoCore fs execFn repo date ts).2).remoteBranches) ∧
    (∀ res, (updateRepoCore fs execFn repo date ts).1 = Except.ok res →
       res.status = "pr-created" →
       (runTrace execFn repo s0 (updateRepoCore fs execFn repo date ts).2).current =
         branchName date ts ∧
       branchName date ts ∈
         (runTrace execFn repo s0 (updateRepoCore fs execFn repo date ts).2).localBranches ∧
       branchName date ts ∈
         (runTrace execFn repo s0 (updateRepoCore fs execFn repo date ts).2).remoteBranches) ∧
    (∀ e, (updateRepoCore fs execFn repo date ts).1 = Except.error e →
       (∃ o, execFn (checkoutCmd (defaultBranchOf execFn repo)) repo = Except.ok o) →
       (∃ o, execFn (deleteBranchCmd (branchName date ts)) repo = Except.ok o) →
       (∃ o, execFn (deleteRemoteCmd (branchName date ts)) repo = Except.ok o) →
       ((runTrace execFn repo s0 (updateRepoCore fs execFn repo date ts).2).current =
          defaultBranchOf execFn repo ∨
        (runTrace execFn repo s0 (updateRepoCore fs execFn repo date ts).2).current =
          s0.current) ∧
       branchName date ts ∉
         (runTrace execFn repo s0 (updateRepoCore fs execFn repo date ts).2).localBranches ∧
       branchName date ts ∉
         (runTrace execFn repo s0 (updateRepoCore fs execFn repo date ts).2).remoteBranches) := by
  rcases h1 : execFn symbolicRefCmd repo with e1 | o1
  · have hc : updateRepoCore fs execFn repo date ts =
        (Except.error e1, [symbolicRefCmd]) := by
      simp [updateRepoCore, tryStep, h1]
    rw [hc]
    refine ⟨fun res h _ => absurd h (by simp), fun res h _ => absurd h (by simp), ?_⟩
    intro e he hco hdel hrem
    simp only [runTrace, h1]
    exact ⟨by simp, hl, hr⟩
  · have hdb : defaultBranchOf execFn repo = (parseDefaultBranch o1.stdout).getD "main" := by
      simp [defaultBranchOf, h1]
    rcases h2 : execFn (checkoutCmd ((parseDefaultBranch o1.stdout).getD "main")) repo
      with e2 | o2
    · have hc : updateRepoCore fs execFn repo date ts =
          (Except.error e2,
           [symbolicRefCmd, checkoutCmd ((parseDefaultBranch o1.stdout).getD "main")]) := by
        simp [updateRepoCore, tryStep, h1, h2]
      rw [hc]
      refine ⟨fun res h _ => absurd h (by simp), fun res h _ => absurd h (by simp), ?_⟩
      intro e he hco hdel hrem
      simp only [runTrace, h1, h2, applyCmd_symbolicRef]
      exact ⟨by simp, hl, hr⟩
    · rcases h3 : execFn pullCmd repo with e3 | o3
      · have hc : updateRepoCore fs execFn repo date ts =
            (Except.error e3,
             [symbolicRefCmd, checkoutCmd ((parseDefaultBranch o1.stdout).getD "main"),
              pullCmd]) := by
          simp [updateRepoCore, tryStep, h1, h2, h3]
        rw [hc]
        refine ⟨fun res h _ => absurd h (by simp), fun res h _ => absurd h (by simp), ?_⟩
        intro e he hco hdel hrem
        rw [hdb]
        simp only [runTrace, h1, h2, h3, applyCmd_symbolicRef, applyCmd_checkout]
        exact ⟨by simp, hl, hr⟩
      · rcases h4 : execFn (checkoutNewCmd (branchName date ts)) repo with e4 | o4
        · have hc : updateRepoCore fs execFn repo date ts =
              (Except.error e4,
               [symbolicRefCmd, checkoutCmd ((parseDefaultBranch o1.stdout).getD "main"),
                pullCmd, checkoutNewCmd (branchName date ts)]) := by
            simp [updateRepoCore, tryStep, h1, h2, h3, h4]
          rw [hc]
          refine ⟨fun res h _ => absurd h (by simp), fun res h _ => absurd h (by simp), ?_⟩
          intro e he hco hdel hrem
          rw [hdb]
          simp only [runTrace, h1, h2, h3, h4, applyCmd_symbolicRef, applyCmd_checkout,
            applyCmd_pull]
          exact ⟨by simp, hl, hr⟩
        · rcases h5 : execFn (getUpdateCommand (detectPackageManager fs repo)) repo
            with e5 | o5
          · have hc : updateRepoCore fs execFn repo date ts =
                (Except.error e5,
                 [symbolicRefCmd, checkoutCmd ((parseDefaultBranch o1.stdout).getD "main"),
                  pullCmd, checkoutNewCmd (branchName date ts),
                  getUpdateCommand (detectPackageManager fs repo),
                  checkoutCmd ((parseDefaultBranch o1.stdout).getD "main"),
                  deleteBranchCmd (branchName date ts)]) := by
              simp [updateRepoCore, tryStep, performCleanup, h1, h2, h3, h4, h5]
            rw [hc]
            refine ⟨fun res h _ => absurd h (by simp), fun res h _ => absurd h (by simp), ?_⟩
            intro e he hco hdel hrem
            obtain ⟨od, hod⟩ := hdel
            rw [hdb]
            simp only [runTrace, h1, h2, h3, h4, h5, hod, applyCmd_symbolicRef,
              applyCmd_checkout, applyCmd_pull, applyCmd_checkoutNew,
              applyCmd_deleteBranch, List.erase_cons_head]
            exact ⟨by simp, hl, hr⟩
          · rcases h6 : execFn (getInstallCommand (detectPackageManager fs repo)) repo
              with e6 | o6
            · have hc : updateRepoCore fs execFn repo date ts =
                  (Except.error e6,
                   [symbolicRefCmd, checkoutCmd ((parseDefaultBranch o1.stdout).getD "main"),
                    pullCmd, checkoutNewCmd (branchName date ts),
                    getUpdateCommand (detectPackageManager fs repo),
                    getInstallCommand (detectPackageManager fs repo),
                    checkoutCmd ((parseDefaultBranch o1.stdout).getD "main"),
                    deleteBranchCmd (branchName date ts)]) := by
                simp [updateRepoCore, tryStep, performCleanup, h1, h2, h3, h4, h5, h6]
              rw [hc]
              refine ⟨fun res h _ => absurd h (by simp), fun res h _ => absurd h (by simp), ?_⟩
              intro e he hco hdel hrem
              obtain ⟨od, hod⟩ := hdel
              rw [hdb]
              simp only [runTrace, h1, h2, h3, h4, h5, h6, hod, applyCmd_symbolicRef,
                applyCmd_checkout, applyCmd_pull, applyCmd_checkoutNew, applyCmd_update,
                applyCmd_deleteBranch, List.erase_cons_head]
              exact ⟨by simp, hl, hr⟩
            · rcases h7 : execFn statusCmd repo with e7 | o7
              · have hc : updateRepoCore fs execFn repo date ts =
                    (Except.error e7,
                     [symbolicRefCmd,
                      checkoutCmd ((parseDefaultBranch o1.stdout).getD "main"),
                      pullCmd, checkoutNewCmd (branchName date ts),
                      getUpdateCommand (detectPackageManager fs repo),
                      getInstallCommand (detectPackageManager fs repo), statusCmd,
                      checkoutCmd ((parseDefaultBranch o1.stdout).getD "main"),
                      deleteBranchCmd (branchName date ts)]) := by
                  simp [updateRepoCore, tryStep, performCleanup, h1, h2, h3, h4, h5, h6, h7]
                rw [hc]
                refine ⟨fun res h _ => absurd h (by simp), fun res h _ => absurd h (by simp), ?_⟩
                intro e he hco hdel hrem
                obtain ⟨od, hod⟩ := hdel
                rw [hdb]
                simp only [runTrace, h1, h2, h3, h4, h5, h6, h7, hod, applyCmd_symbolicRef,
                  applyCmd_checkout, applyCmd_pull, applyCmd_checkoutNew, applyCmd_update,
                  applyCmd_install, applyCmd_deleteBranch, List.erase_cons_head]
                exact ⟨by simp, hl, hr⟩
              · by_cases hs : o7.stdout = ""
                · rcases h9 : execFn (deleteBranchCmd (branchName date ts)) repo with e9 | o9
                  · refine ⟨?_, ?_, ?_⟩
                    · intro res h _
                      refine absurd h ?_
                      simp [updateRepoCore, tryStep, performCleanup,
                        h1, h2, h3, h4, h5, h6, h7, hs, h9]
                    · intro res h _
                      refine absurd h ?_
                      simp [updateRepoCore, tryStep, performCleanup,
                        h1, h2, h3, h4, h5, h6, h7, hs, h9]
                    · intro e he hco hdel hrem
                      obtain ⟨od, hod⟩ := hdel
                      exact absurd hod (by simp [h9])
                  · have hc : updateRepoCore fs execFn repo date ts =
                        (Except.ok { repo := repo, status := "no-changes", prUrl := none },
                         [symbolicRefCmd,
                          checkoutCmd ((parseDefaultBranch o1.stdout).getD "main"),
                          pullCmd, checkoutNewCmd (branchName date ts),
                          getUpdateCommand (detectPackageManager fs repo),
                          getInstallCommand (detectPackageManager fs repo), statusCmd,
                          checkoutCmd ((parseDefaultBranch o1.stdout).getD "main"),
                          deleteBranchCmd (branchName date ts)]) := by
                      simp [updateRepoCore, tryStep, h1, h2, h3, h4, h5, h6, h7, hs, h9]
                    rw [hc]
                    refine ⟨?_, ?_, fun e he _ _ _ => absurd he (by simp)⟩
                    · intro res h _
                      rw [hdb]
                      simp only [runTrace, h1, h2, h3, h4, h5, h6, h7, h9,
                        applyCmd_symbolicRef, applyCmd_checkout, applyCmd_pull,
                        applyCmd_checkoutNew, applyCmd_update, applyCmd_install,
                        applyCmd_status, applyCmd_deleteBranch, List.erase_cons_head]
                      exact ⟨by simp, hl, hr⟩
                    · intro res h hst
                      injection h with hinj
                      rw [← hinj] at hst
                      simp at hst
                · rcases h8 : execFn addCmd repo with e8 | o8
                  · have hc : updateRepoCore fs execFn repo date ts =
                        (Except.error e8,
                         [symbolicRefCmd,
                          checkoutCmd ((parseDefaultBranch o1.stdout).getD "main"),
                          pullCmd, checkoutNewCmd (branchName date ts),
                          getUpdateCommand (detectPackageManager fs repo),
                          getInstallCommand (detectPackageManager fs repo), statusCmd,
                          addCmd,
                          checkoutCmd ((parseDefaultBranch o1.stdout).getD "main"),
                          deleteBranchCmd (branchName date ts)]) := by
                      simp [updateRepoCore, tryStep, performCleanup,
                        h1, h2, h3, h4, h5, h6, h7, hs, h8]
                    rw [hc]
                    refine ⟨fun res h _ => absurd h (by simp),
                      fun res h _ => absurd h (by simp), ?_⟩
                    intro e he hco hdel hrem
                    obtain ⟨od, hod⟩ := hdel
                    rw [hdb]
                    simp only [runTrace, h1, h2, h3, h4, h5, h6, h7, h8, hod,
                      applyCmd_symbolicRef, applyCmd_checkout, applyCmd_pull,
                      applyCmd_checkoutNew, applyCmd_update, applyCmd_install,
                      applyCmd_status, applyCmd_deleteBranch, List.erase_cons_head]
                    exact ⟨by simp, hl, hr⟩
                  · rcases h10 : execFn (commitCmd date) repo with e10 | o10
                    · have hc : updateRepoCore fs execFn repo date ts =
                          (Except.error e10,
                           [symbolicRefCmd,
                            checkoutCmd ((parseDefaultBranch o1.stdout).getD "main"),
                            pullCmd, checkoutNewCmd (branchName date ts),
                            getUpdateCommand (detectPackageManager fs repo),
                            getInstallCommand (detectPackageManager fs repo), statusCmd,
                            addCmd, commitCmd date,
                            checkoutCmd ((parseDefaultBranch o1.stdout).getD "main"),
                            deleteBranchCmd (branchName date ts)]) := by
                        simp [updateRepoCore, tryStep, performCleanup,
                          h1, h2, h3, h4, h5, h6, h7, hs, h8, h10]
                      rw [hc]
                      refine ⟨fun res h _ => absurd h (by simp),
                        fun res h _ => absurd h (by simp), ?_⟩
                      intro e he hco hdel hrem
                      obtain ⟨od, hod⟩ := hdel
                      rw [hdb]
                      simp only [runTrace, h1, h2, h3, h4, h5, h6, h7, h8, h10, hod,
                        applyCmd_symbolicRef, applyCmd_checkout, applyCmd_pull,
                        applyCmd_checkoutNew, applyCmd_update, applyCmd_install,
                        applyCmd_status, applyCmd_add, applyCmd_deleteBranch,
                        List.erase_cons_head]
                      exact ⟨by simp, hl, hr⟩
                    · rcases h11 : execFn (pushCmd (branchName date ts)) repo with e11 | o11
                      · have hc : updateRepoCore fs execFn repo date ts =
                            (Except.error e11,
                             [symbolicRefCmd,
                              checkoutCmd ((parseDefaultBranch o1.stdout).getD "main"),
                              pullCmd, checkoutNewCmd (branchName date ts),
                              getUpdateCommand (detectPackageManager fs repo),
                              getInstallCommand (detectPackageManager fs repo), statusCmd,
                              addCmd, commitCmd date, pushCmd (branchName date ts),
                              checkoutCmd ((parseDefaultBranch o1.stdout).getD "main"),
                              deleteBranchCmd (branchName date ts)]) := by
                          simp [updateRepoCore, tryStep, performCleanup,
                            h1, h2, h3, h4, h5, h6, h7, hs, h8, h10, h11]
                        rw [hc]
                        refine ⟨fun res h _ => absurd h (by simp),
                          fun res h _ => absurd h (by simp), ?_⟩
                        intro e he hco hdel hrem
                        obtain ⟨od, hod⟩ := hdel
                        rw [hdb]
                        simp only [runTrace, h1, h2, h3, h4, h5, h6, h7, h8, h10, h11, hod,
                          applyCmd_symbolicRef, applyCmd_checkout, applyCmd_pull,
                          applyCmd_checkoutNew, applyCmd_update, applyCmd_install,
                          applyCmd_status, applyCmd_add, applyCmd_commit,
                          applyCmd_deleteBranch, List.erase_cons_head]
                        exact ⟨by simp, hl, hr⟩
                      · rcases h12 : execFn (prCreateCmd date) repo with e12 | o12
                        · have hc : updateRepoCore fs execFn repo date ts =
                              (Except.error e12,
                               [symbolicRefCmd,
                                checkoutCmd ((parseDefaultBranch o1.stdout).getD "main"),
                                pullCmd, checkoutNewCmd (branchName date ts),
                                getUpdateCommand (detectPackageManager fs repo),
                                getInstallCommand (detectPackageManager fs repo), statusCmd,
                                addCmd, commitCmd date, pushCmd (branchName date ts),
                                prCreateCmd date,
                                checkoutCmd ((parseDefaultBranch o1.stdout).getD "main"),
                                deleteRemoteCmd (branchName date ts),
                                deleteBranchCmd (branchName date ts)]) := by
                            simp [updateRepoCore, tryStep, performCleanup,
                              h1, h2, h3, h4, h5, h6, h7, hs, h8, h10, h11, h12]
                          rw [hc]
                          refine ⟨fun res h _ => absurd h (by simp),
                            fun res h _ => absurd h (by simp), ?_⟩
                          intro e he hco hdel hrem
                          obtain ⟨od, hod⟩ := hdel
                          obtain ⟨og, hog⟩ := hrem
                          rw [hdb]
                          simp only [runTrace, h1, h2, h3, h4, h5, h6, h7, h8, h10, h11,
                            h12, hod, hog, applyCmd_symbolicRef, applyCmd_checkout,
                            applyCmd_pull, applyCmd_checkoutNew, applyCmd_update,
                            applyCmd_install, applyCmd_status, applyCmd_add,
                            applyCmd_commit, applyCmd_push, applyCmd_prCreate,
                            applyCmd_deleteRemote, applyCmd_deleteBranch,
                            List.erase_cons_head]
                          exact ⟨by simp, hl, hr⟩
                        · have hc : updateRepoCore fs execFn repo date ts =
                              (Except.ok { repo := repo, status := "pr-created",
                                           prUrl := some (jsTrim o12.stdout) },
                               [symbolicRefCmd,
                                checkoutCmd ((parseDefaultBranch o1.stdout).getD "main"),
                                pullCmd, checkoutNewCmd (branchName date ts),
                                getUpdateCommand (detectPackageManager fs repo),
                                getInstallCommand (detectPackageManager fs repo), statusCmd,
                                addCmd, commitCmd date, pushCmd (branchName date ts),
                                prCreateCmd date]) := by
                            simp [updateRepoCore, tryStep,
                              h1, h2, h3, h4, h5, h6, h7, hs, h8, h10, h11, h12]
                          rw [hc]
                          refine ⟨?_, ?_, fun e he _ _ _ => absurd he (by simp)⟩
                          · intro res h hst
                            injection h with hinj
                            rw [← hinj] at hst
                            simp at hst
                          · intro res h _
                            simp only [runTrace, h1, h2, h3, h4, h5, h6, h7, h8, h10, h11,
                              h12, applyCmd_symbolicRef, applyCmd_checkout, applyCmd_pull,
                              applyCmd_checkoutNew, applyCmd_update, applyCmd_install,
                              applyCmd_status, applyCmd_add, applyCmd_commit,
                              applyCmd_push, applyCmd_prCreate]
                            exact ⟨by simp, by simp, by simp⟩

/-- Witness for C1 amended: in the concrete successful run the repository
stays on the working branch (present locally and remotely), and in the
concrete failing run with succeeding cleanup commands the repository is
restored with the working branch gone. -/
theorem branchLifecycleByExitPathWitness :
    ((runTrace execHappy "r"
        { current := "main", localBranches := ["main"], remoteBranches := ["main"] }
        (updateRepoCore fsEmpty execHappy "r" "2025-01-01" 7).2).current =
      branchName "2025-01-01" 7 ∧
     branchName "2025-01-01" 7 ∈
       (runTrace execHappy "r"
         { current := "main", localBranches := ["main"], remoteBranches := ["main"] }
         (updateRepoCore fsEmpty execHappy "r" "2025-01-01" 7).2).localBranches ∧
     branchName "2025-01-01" 7 ∈
       (runTrace execHappy "r"
         { current := "main", localBranches := ["main"], remoteBranches := ["main"] }
         (updateRepoCore fsEmpty execHappy "r" "2025-01-01" 7).2).remoteBranches) ∧
    (((runTrace execFailInstall "r"
        { current := "main", localBranches := ["main"], remoteBranches := ["main"] }
        (updateRepoCore fsEmpty execFailInstall "r" "2025-01-01" 7).2).current = "main" ∨
      (runTrace execFailInstall "r"
        { current := "main", localBranches := ["main"], remoteBranches := ["main"] }
        (updateRepoCore fsEmpty execFailInstall "r" "2025-01-01" 7).2).current = "main") ∧
     branchName "2025-01-01" 7 ∉
       (runTrace execFailInstall "r"
         { current := "main", localBranches := ["main"], remoteBranches := ["main"] }
         (updateRepoCore fsEmpty execFailInstall "r" "2025-01-01" 7).2).localBranches ∧
     branchName "2025-01-01" 7 ∉
       (runTrace execFailInstall "r"
         { current := "main", localBranches := ["main"], remoteBranches := ["main"] }
         (updateRepoCore fsEmpty execFailInstall "r" "2025-01-01" 7).2).remoteBranches) :=
  ⟨(branchLifecycleByExitPath fsEmpty execHappy "r" "2025-01-01" 7
      { current := "main", localBranches := ["main"], remoteBranches := ["main"] }
      (by decide) (by decide)).2.1
     { repo := "r", status := "pr-created",
       prUrl := some (jsTrim "https://github.com/owner/repo/pull/42") }
     (by decide) (by decide),
   (branchLifecycleByExitPath fsEmpty execFailInstall "r" "2025-01-01" 7
      { current := "main", localBranches := ["main"], remoteBranches := ["main"] }
      (by decide) (by decide)).2.2 errInstall (by decide)
     ⟨{ stdout := "", stderr := "" }, by decide⟩
     ⟨{ stdout := "", stderr := "" }, by decide⟩
     ⟨{ stdout := "", stderr := "" }, by decide⟩⟩
